import Mathlib

/-!
# OCR Web Application — verification of the extraction pipeline and frontend

A shallow embedding of the repository's sources:

* the React frontend (`App.jsx`, `UploadArea.jsx`, `ResultsPanel.jsx`),
  embedded directly from the JSX sources;
* the HTTP payload of `POST /api/ocr` as documented in the repository README;
* the backend ingestion/OCR pipeline (FileValidator, ImagePreprocessor,
  RecognitionAdapter, ResultAggregator), whose Python sources are not part of
  the repository snapshot; those components are modelled from the
  specification, with each such definition marked `Modelled from the spec:`.

Numbers travelling through JSON (confidence values) are modelled as rationals,
sizes and counts as naturals.
-/

set_option maxRecDepth 100000

namespace OCRApp

/-! ## Data model

The `data` object of a successful `POST /api/ocr` response, as the frontend
consumes it.  `page_count` is an `Option`: `ResultsPanel.jsx` guards every use
of `result.page_count` behind a truthiness check (line 148), and the README's
documented response example omits the field. -/

/-- The OCR result object the frontend receives (`response.data.data` in
`App.jsx`; `result` in `ResultsPanel.jsx`). -/
structure OcrData where
  text : String
  confidence : ℚ
  word_count : ℕ
  language : String
  original_filename : String
  page_count : Option ℕ
deriving DecidableEq

/-- Field names of the `data` object in the README's documented success
response for `POST /api/ocr` (README, response example): text, confidence,
word_count, language, original_filename. -/
def apiOcrResponseDataFields : List String :=
  ["text", "confidence", "word_count", "language", "original_filename"]

/-! ## ResultsPanel.jsx -/

/-- Embeds `getConfidenceColor` (ResultsPanel.jsx lines 29-33). -/
def getConfidenceColor (confidence : ℚ) : String :=
  if confidence ≥ 80 then "text-green-600 bg-green-50"
  else if confidence ≥ 60 then "text-yellow-600 bg-yellow-50"
  else "text-orange-600 bg-orange-50"

/-- Embeds `getConfidenceLabel` (ResultsPanel.jsx lines 35-39). -/
def getConfidenceLabel (confidence : ℚ) : String :=
  if confidence ≥ 80 then "High Confidence"
  else if confidence ≥ 60 then "Medium Confidence"
  else "Low Confidence"

/-- Embeds the download filename chosen by `handleDownload`
(ResultsPanel.jsx line 22): the template string
extracted-text-$\x7bDate.now()\x7d.txt.  `dateNow` is the value of
`Date.now()` at click time; the `result` argument is in scope in the source
(the blob content is `result.text`) but the filename does not consult it. -/
def handleDownloadFilename (result : OcrData) (dateNow : ℕ) : String :=
  "extracted-text-" ++ Nat.repr dateNow ++ ".txt"

/-- Embeds the page-count footer guard (ResultsPanel.jsx line 148):
`result.page_count && ...` renders the "Processed N pages" line only when
`page_count` is present and truthy (`0` is falsy in JavaScript). -/
def resultsPanelShowsPageCount (page_count : Option ℕ) : Bool :=
  match page_count with
  | none => false
  | some n => n != 0

/-! ## UploadArea.jsx -/

/-- A file as the dropzone hands it to `UploadArea` (name, size in bytes,
MIME type). -/
structure UFile where
  name : String
  size : ℕ
  mime : String
deriving DecidableEq

/-- Embeds the `maxSize` option of `useDropzone` (UploadArea.jsx line 34). -/
def dropzoneMaxSize : ℕ := 10485760

/-- Embeds the `accept` option of `useDropzone` (UploadArea.jsx lines 29-33):
extension lists keyed by MIME type, in source order. -/
def dropzoneAcceptExtensions : List (List String) :=
  [[".png"], [".jpg", ".jpeg"], [".pdf"]]

/-- Embeds `handleUpload` (UploadArea.jsx lines 39-43) as the list of
`onFileSelect` calls it issues: one call with the selected file when a file is
selected, no call otherwise. -/
def handleUploadCalls (selectedFile : Option UFile) : List UFile :=
  match selectedFile with
  | some f => [f]
  | none => []

/-- Embeds the render guard of the Extract Text button
(UploadArea.jsx line 140): `selectedFile && !isProcessing`. -/
def showExtractButton (selectedFile : Option UFile) (isProcessing : Bool) : Bool :=
  selectedFile.isSome && !isProcessing

/-! ## App.jsx state machine

`App` holds three state variables (`isProcessing`, `result`, `error`,
lines 9-11, initially `false`/`null`/`null`).  `handleFileSelect`
(lines 13-43) first sets `isProcessing` to `true` and clears both `result`
and `error`, then awaits the request; the success branch sets `result`, the
failure branches set `error`, and the `finally` block resets `isProcessing`.
`handleReset` (lines 45-48) clears `result` and `error`.  JavaScript runs the
handler sequentially, so the request start and its settlement are modelled as
separate events, with settlement enabled only while a request is in flight. -/

/-- The `useState` triple of `App.jsx`. -/
structure AppState where
  isProcessing : Bool
  result : Option OcrData
  error : Option String
deriving DecidableEq

/-- Initial state (App.jsx lines 9-11). -/
def initialAppState : AppState := ⟨false, none, none⟩

/-- Events of the `App` component. -/
inductive AppEvent where
  | uploadStart
  | uploadSuccess (d : OcrData)
  | uploadFailure (msg : String)
  | reset

/-- One transition of `App`'s state.  `uploadStart` embeds
App.jsx lines 14-16; `uploadSuccess` the success branch (line 29) plus the
`finally` block (line 41); `uploadFailure` the error branch / catch
(lines 31, 35-39) plus the `finally` block; `reset` embeds `handleReset`
(lines 45-48).  Settlement events are enabled (`some`) only while a request
is in flight. -/
def appStep (s : AppState) : AppEvent → Option AppState
  | .uploadStart => some ⟨true, none, none⟩
  | .uploadSuccess d =>
      if s.isProcessing then some ⟨false, some d, s.error⟩ else none
  | .uploadFailure m =>
      if s.isProcessing then some ⟨false, s.result, some m⟩ else none
  | .reset => some ⟨s.isProcessing, none, none⟩

/-- States of `App` reachable from the initial state. -/
inductive AppReachable : AppState → Prop
  | init : AppReachable initialAppState
  | step {s s' : AppState} (e : AppEvent) :
      AppReachable s → appStep s e = some s' → AppReachable s'

/-! ## Backend pipeline

The backend Python sources (`main.py`, `config.py`, `validators.py`,
`ocr_processor.py`) are not part of the repository snapshot; the README
documents their configuration constants, and the specification describes
their behaviour.  The definitions below are therefore modelled from the
specification, using the README's constants. -/

/-- Configured maximum upload size in bytes (README: `MAX_FILE_SIZE=10485760`). -/
def MAX_FILE_SIZE : ℕ := 10485760

/-- Configured extension allow-list
(README: `ALLOWED_EXTENSIONS=.png,.jpg,.jpeg,.pdf`). -/
def ALLOWED_EXTENSIONS : List String := [".png", ".jpg", ".jpeg", ".pdf"]

/-- Configured maximum image dimension (README: `MAX_IMAGE_DIMENSION=4000`). -/
def MAX_IMAGE_DIMENSION : ℕ := 4000

/-- Configured target DPI (README: `TARGET_DPI=300`). -/
def TARGET_DPI : ℕ := 300

/-- The error taxonomy of the specification (§7). -/
inductive OcrError where
  | FileTooLarge
  | UnsupportedType
  | CorruptOrSpoofedFile
  | CorruptDocument
  | RecognitionEngineError
  | RecognitionTimeout
  | InternalPipelineError
deriving DecidableEq

/-- The dot-suffix extension of a filename: everything from the last `.` on,
or the empty string when the name has no dot. -/
def fileExt (name : String) : String :=
  if '.' ∈ name.toList then
    String.mk ('.' :: (name.toList.reverse.takeWhile (fun c => c != '.')).reverse)
  else ""

/-- The extension lowercased, for the case-insensitive allow-list check. -/
def fileExtLower (name : String) : String :=
  String.mk ((fileExt name).toList.map Char.toLower)

/-- Modelled from the spec: `FileValidator.validate` (§4.1; backend
`validators.py` not in the snapshot).  Checks in the spec's order: declared
size against the configured maximum (`FileTooLarge`), case-insensitive
extension against the allow-list (`UnsupportedType`), then the sniffed byte
signature (`CorruptOrSpoofedFile`).  `signatureOk` abstracts the magic-byte
sniff of the raw bytes. -/
def validate (declaredSize : ℕ) (filename : String) (signatureOk : Bool) :
    Except OcrError Unit :=
  if MAX_FILE_SIZE < declaredSize then .error .FileTooLarge
  else if fileExtLower filename ∉ ALLOWED_EXTENSIONS then .error .UnsupportedType
  else if !signatureOk then .error .CorruptOrSpoofedFile
  else .ok ()

/-- Splits a character sequence at path separators (`/` and `\`). -/
def splitOnSeps : List Char → List (List Char)
  | [] => [[]]
  | c :: cs =>
      let rest := splitOnSeps cs
      if c = '/' ∨ c = '\\' then [] :: rest
      else (c :: rest.headD []) :: rest.tail

/-- Modelled from the spec: the filename sanitization of `FileValidator`
(§4.1) — rejects null bytes, splits away path separators, drops
parent-directory segments, truncates to a bounded length (255 characters). -/
def sanitizeFilename (name : String) : Option String :=
  if (Char.ofNat 0) ∈ name.toList then none
  else
    let segments := (splitOnSeps name.toList).filter (fun s => s != ['.', '.'])
    some (String.mk (segments.flatten.take 255))

/-- A recognized word with its confidence (spec §3 `WordToken`): confidence
in [0, 100], with a negative sentinel (−1) meaning "no confidence
reported". -/
structure WordToken where
  text : String
  conf : ℚ
deriving DecidableEq

/-- Modelled from the spec: the per-token loop of the recognition adapter /
aggregator (§4.4) — walk the engine's token sequence in order, drop tokens
with empty text, collect every kept token's text, and collect the confidence
of every kept token whose confidence is not the sentinel.  Returns (texts,
confidences). -/
def collectTokens : List WordToken → List String × List ℚ
  | [] => ([], [])
  | t :: ts =>
      let rest := collectTokens ts
      if t.text = "" then rest
      else (t.text :: rest.1, if t.conf < 0 then rest.2 else t.conf :: rest.2)

/-- The word texts a page contributes: none for a failed page (`none`),
the kept token texts otherwise. -/
def pageWords (p : Option (List WordToken)) : List String :=
  match p with
  | none => []
  | some ts => (collectTokens ts).1

/-- The non-sentinel confidences a page contributes. -/
def pageConfs (p : Option (List WordToken)) : List ℚ :=
  match p with
  | none => []
  | some ts => (collectTokens ts).2

/-- The text a page contributes: its kept token texts joined by spaces;
a failed page contributes the empty string. -/
def pageTextOf (p : Option (List WordToken)) : String :=
  String.intercalate " " (pageWords p)

/-- All non-sentinel confidences of a document, in page order. -/
def allConfs (pages : List (Option (List WordToken))) : List ℚ :=
  (pages.map pageConfs).flatten

/-- The extraction result record (spec §3/§6). -/
structure ExtractionResult where
  text : String
  confidence : ℚ
  word_count : ℕ
  page_count : ℕ
  language : String
  original_filename : String
deriving DecidableEq

/-- Rounding to 1 decimal place, on rationals. -/
def round1 (x : ℚ) : ℚ := (round (10 * x) : ℤ) / 10

/-- Modelled from the spec: `ResultAggregator.aggregate` (§4.5) — page texts
joined in page order by a blank line, `word_count` the total of kept tokens
over successful pages, `confidence` the arithmetic mean of all non-sentinel
token confidences rounded to 1 decimal place, 0 when no token carried
confidence, `page_count` the number of pages including failed ones. -/
def aggregate (pages : List (Option (List WordToken)))
    (filename language : String) : ExtractionResult :=
  { text := String.intercalate "\n\n" (pages.map pageTextOf)
    confidence :=
      if allConfs pages = [] then 0
      else round1 ((allConfs pages).sum / ((allConfs pages).length : ℚ))
    word_count := ((pages.map pageWords).map List.length).sum
    page_count := pages.length
    language := language
    original_filename := filename }

/-- Modelled from the spec: the page-level recovery policy (§7) — each page's
recognition outcome is `some tokens` or `none` for a failed page; a failed
page is recovered locally, and the request fails as `RecognitionEngineError`
exactly when every page failed. -/
def processPages (pages : List (Option (List WordToken)))
    (filename language : String) : Except OcrError ExtractionResult :=
  if pages.all (·.isNone) then .error .RecognitionEngineError
  else .ok (aggregate pages filename language)

/-! ## ImagePreprocessor

Modelled from the spec (§4.3): a pure pixel pipeline — fixed-weight
grayscale, DPI normalization toward the target, dimension bounding to the
configured maximum (the hard ceiling), a fixed 3×3 smoothing kernel, and
adaptive (locally referenced) binarization.  The ambient process environment
(PRNG seed, wall clock) is made explicit as an argument so that independence
from it is a statable property; the pipeline never consults it. -/

/-- A raster page handed to the preprocessor: RGB pixel rows, nominal DPI. -/
structure RawPageImage where
  width : ℕ
  height : ℕ
  dpi : ℕ
  pixels : List (List (ℕ × ℕ × ℕ))
deriving DecidableEq

/-- A normalized (single-channel, binarized) page. -/
structure NormalizedPageImage where
  width : ℕ
  height : ℕ
  pixels : List (List ℕ)
deriving DecidableEq

/-- The ambient sources of nondeterminism available to the process: a PRNG
seed and the wall clock. -/
structure ProcessEnv where
  seed : ℕ
  clock : ℕ

/-- Fixed ITU-R 601 luminance weighting, in integer permille. -/
def luminance (p : ℕ × ℕ × ℕ) : ℕ :=
  (299 * p.1 + 587 * p.2.1 + 114 * p.2.2) / 1000

/-- Pixel lookup with clamping-by-default (out-of-range reads return 0). -/
def px (g : List (List ℕ)) (i j : ℕ) : ℕ :=
  (g.getD i []).getD j 0

/-- DPI normalization (§4.3 step 3): below the target DPI, upscale both
dimensions proportionally toward the target. -/
def dpiScale (w h dpi : ℕ) : ℕ × ℕ :=
  if dpi = 0 ∨ TARGET_DPI ≤ dpi then (w, h)
  else (w * TARGET_DPI / dpi, h * TARGET_DPI / dpi)

/-- Dimension bounding (§4.3 step 2): when the larger dimension exceeds the
configured maximum, downscale preserving aspect ratio so it equals the
maximum. -/
def boundDims (w h : ℕ) : ℕ × ℕ :=
  if max w h ≤ MAX_IMAGE_DIMENSION then (w, h)
  else if h ≤ w then (MAX_IMAGE_DIMENSION, h * MAX_IMAGE_DIMENSION / w)
  else (w * MAX_IMAGE_DIMENSION / h, MAX_IMAGE_DIMENSION)

/-- Nearest-neighbour resampling of a grayscale grid from h×w to h'×w'. -/
def resample (g : List (List ℕ)) (h w h2 w2 : ℕ) : List (List ℕ) :=
  (List.range h2).map fun i =>
    (List.range w2).map fun j =>
      px g (i * h / h2) (j * w / w2)

/-- Noise reduction (§4.3 step 4): 3×3 box smoothing with a fixed kernel. -/
def blur3 (g : List (List ℕ)) (h w : ℕ) : List (List ℕ) :=
  (List.range h).map fun i =>
    (List.range w).map fun j =>
      (px g (i - 1) (j - 1) + px g (i - 1) j + px g (i - 1) (j + 1) +
       px g i (j - 1) + px g i j + px g i (j + 1) +
       px g (i + 1) (j - 1) + px g (i + 1) j + px g (i + 1) (j + 1)) / 9

/-- Binarization (§4.3 step 5): adaptive thresholding of each pixel against
its smoothed neighbourhood (minus a small fixed offset). -/
def binarize (g b : List (List ℕ)) (h w : ℕ) : List (List ℕ) :=
  (List.range h).map fun i =>
    (List.range w).map fun j =>
      if px b i j ≤ px g i j + 2 then 255 else 0

/-- Modelled from the spec: `ImagePreprocessor.preprocess` (§4.3; backend
`ocr_processor.py` not in the snapshot).  Fixed-order pipeline: grayscale →
DPI normalization → dimension bounding (hard ceiling) → 3×3 smoothing →
adaptive binarization.  All parameters are the configured constants; the
ambient environment `env` is never consulted. -/
def preprocess (env : ProcessEnv) (img : RawPageImage) : NormalizedPageImage :=
  let g := img.pixels.map (fun row => row.map luminance)
  let d := dpiScale img.width img.height img.dpi
  let b := boundDims d.1 d.2
  let g2 := resample g img.height img.width b.2 b.1
  let sm := blur3 g2 b.2 b.1
  { width := b.1
    height := b.2
    pixels := binarize g2 sm b.2 b.1 }

/-! ## Theorems -/

/-- The six `ExtractionResult` field names in the specification's words
(§3/§6), for comparison with the documented payload. -/
def specExtractionFields : List String :=
  ["text", "confidence", "word_count", "page_count", "language",
   "original_filename"]

/-- A concrete successful result, as the frontend would receive it. -/
def exampleOcrData : OcrData :=
  { text := "Hello world"
    confidence := 90
    word_count := 2
    language := "eng"
    original_filename := "doc.pdf"
    page_count := none }

/-- C1 (counterexample): the claim that the serialized payload contains all
six fields (text, confidence, word_count, page_count, language,
original_filename) is false: `page_count` is not among the fields of the
documented `POST /api/ocr` response payload. -/
theorem serialized_payload_missing_page_count :
    ¬ (∀ f ∈ specExtractionFields, f ∈ apiOcrResponseDataFields) := by
  decide

/-- C1 (amended): the serialized payload documented for `POST /api/ocr`
contains the five fields text, confidence, word_count, language and
original_filename; `page_count` is optional and the results panel renders
its footer only when the field is present. -/
theorem serialized_payload_five_fields :
    (["text", "confidence", "word_count", "language",
      "original_filename"].all (fun f => apiOcrResponseDataFields.contains f))
      = true
    ∧ resultsPanelShowsPageCount none = false := by
  decide

/-- C2 (counterexample): the claim that every filename used for download
naming is the uploaded document's filename sanitized (separators and
parent-directory segments stripped, null bytes rejected, bounded length) is
false: for the result of uploading doc.pdf, at `Date.now() = 0`,
`handleDownload` names the file extracted-text-0.txt, while the sanitized
upload name is doc.pdf. -/
theorem download_name_not_sanitized_filename :
    ¬ (∀ (r : OcrData) (t : ℕ),
        some (handleDownloadFilename r t) = sanitizeFilename r.original_filename) :=
  fun h => absurd (h exampleOcrData 0) (by decide)

/-- C2 (amended): the download filename is not derived from the uploaded
document's filename at all: for every result it is the fixed pattern
extracted-text-(timestamp).txt, identical across all results at the same
instant. -/
theorem download_name_constant_pattern (r₁ r₂ : OcrData) (t : ℕ) :
    handleDownloadFilename r₁ t = handleDownloadFilename r₂ t
    ∧ handleDownloadFilename r₁ t = "extracted-text-" ++ Nat.repr t ++ ".txt" :=
  ⟨rfl, rfl⟩

/-- C7: `preprocess` never consults the ambient process environment (PRNG
seed, wall clock): two runs on identical input bytes, under any two
environments, produce identical normalized output. -/
theorem preprocess_deterministic (e₁ e₂ : ProcessEnv) (img : RawPageImage) :
    preprocess e₁ img = preprocess e₂ img := rfl

/-- C9: the confidence classification of `ResultsPanel` is total and
exclusive — the label is High Confidence iff confidence ≥ 80, Medium
Confidence iff 60 ≤ confidence < 80, Low Confidence iff confidence < 60, and
`getConfidenceColor` partitions by the same thresholds. -/
theorem confidence_classification_partition (c : ℚ) :
    (getConfidenceLabel c = "High Confidence" ↔ 80 ≤ c)
    ∧ (getConfidenceLabel c = "Medium Confidence" ↔ 60 ≤ c ∧ c < 80)
    ∧ (getConfidenceLabel c = "Low Confidence" ↔ c < 60)
    ∧ (getConfidenceColor c = "text-green-600 bg-green-50" ↔ 80 ≤ c)
    ∧ (getConfidenceColor c = "text-yellow-600 bg-yellow-50" ↔ 60 ≤ c ∧ c < 80)
    ∧ (getConfidenceColor c = "text-orange-600 bg-orange-50" ↔ c < 60) := by
  unfold getConfidenceLabel getConfidenceColor
  split_ifs with h1 h2
  · refine ⟨iff_of_true rfl h1, iff_of_false (by decide) ?_,
      iff_of_false (by decide) ?_, iff_of_true rfl h1,
      iff_of_false (by decide) ?_, iff_of_false (by decide) ?_⟩
    · intro h
      linarith [h.2]
    · intro h
      linarith
    · intro h
      linarith [h.2]
    · intro h
      linarith
  · have h3 : c < 80 := not_le.mp h1
    refine ⟨iff_of_false (by decide) h1, iff_of_true rfl ⟨h2, h3⟩,
      iff_of_false (by decide) ?_, iff_of_false (by decide) h1,
      iff_of_true rfl ⟨h2, h3⟩, iff_of_false (by decide) ?_⟩
    · intro h
      linarith
    · intro h
      linarith
  · have h3 : c < 60 := not_le.mp h2
    refine ⟨iff_of_false (by decide) h1, iff_of_false (by decide) ?_,
      iff_of_true rfl h3, iff_of_false (by decide) h1,
      iff_of_false (by decide) ?_, iff_of_true rfl h3⟩
    · intro h
      exact h2 h.1
    · intro h
      exact h2 h.1

/-- C10: no OCR request without a selected file — `handleUpload` issues an
`onFileSelect` call only with the selected file, and the Extract Text button
is rendered only when a file is selected and no request is in flight. -/
theorem upload_requires_selected_file (s : Option UFile) (p : Bool) :
    (∀ f ∈ handleUploadCalls s, s = some f)
    ∧ (showExtractButton s p = true → s ≠ none ∧ p = false) := by
  constructor
  · intro f hf
    cases s with
    | none => simp [handleUploadCalls] at hf
    | some g =>
        simp [handleUploadCalls] at hf
        rw [hf]
  · intro h
    cases s with
    | none => simp [showExtractButton] at h
    | some g =>
        cases p with
        | false => exact ⟨by simp, rfl⟩
        | true => simp [showExtractButton] at h

/-- C10 witness: at the concrete selected file doc.pdf with no request in
flight, the button guard holds and the single issued call carries that
file. -/
theorem upload_requires_selected_file_witness :
    (some (UFile.mk "doc.pdf" 5 "application/pdf") =
      some (UFile.mk "doc.pdf" 5 "application/pdf"))
    ∧ ((some (UFile.mk "doc.pdf" 5 "application/pdf") :
        Option UFile) ≠ none ∧ false = false) :=
  ⟨(upload_requires_selected_file (some (UFile.mk "doc.pdf" 5 "application/pdf"))
      false).1 (UFile.mk "doc.pdf" 5 "application/pdf") (by decide),
   (upload_requires_selected_file (some (UFile.mk "doc.pdf" 5 "application/pdf"))
      false).2 (by decide)⟩

/-- C3: a file is accepted only when its declared size is at most the
configured maximum (10485760 bytes) and its lowercased extension is in the
allow-list .png/.jpg/.jpeg/.pdf; an oversized file fails with `FileTooLarge`,
and a file passing the size check with any other extension fails with
`UnsupportedType` (the spec checks size first).  The frontend dropzone
enforces the same limits: its `maxSize` equals the configured maximum and its
accepted extensions are exactly the allow-list. -/
theorem validate_size_and_extension (size : ℕ) (name : String) (sig : Bool) :
    (validate size name sig = .ok () ↔
      size ≤ MAX_FILE_SIZE ∧ fileExtLower name ∈ ALLOWED_EXTENSIONS ∧ sig = true)
    ∧ (MAX_FILE_SIZE < size → validate size name sig = .error .FileTooLarge)
    ∧ (size ≤ MAX_FILE_SIZE → fileExtLower name ∉ ALLOWED_EXTENSIONS →
        validate size name sig = .error .UnsupportedType)
    ∧ dropzoneMaxSize = MAX_FILE_SIZE
    ∧ dropzoneAcceptExtensions.flatten = ALLOWED_EXTENSIONS := by
  unfold validate
  refine ⟨⟨?_, ?_⟩, ?_, ?_, by decide, by decide⟩
  · intro h
    by_cases h1 : MAX_FILE_SIZE < size
    · rw [if_pos h1] at h
      cases h
    · rw [if_neg h1] at h
      by_cases h2 : fileExtLower name ∈ ALLOWED_EXTENSIONS
      · rw [if_neg (not_not.mpr h2)] at h
        cases sig with
        | true => exact ⟨not_lt.mp h1, h2, rfl⟩
        | false =>
            rw [if_pos (show (!false) = true from rfl)] at h
            cases h
      · rw [if_pos h2] at h
        cases h
  · intro h
    obtain ⟨hs, he, hsig⟩ := h
    rw [if_neg (not_lt.mpr hs), if_neg (not_not.mpr he), if_neg (by simp [hsig])]
  · intro h1
    rw [if_pos h1]
  · intro hs he
    rw [if_neg (not_lt.mpr hs), if_pos he]

/-- C3 witness: a 10485761-byte upload fails with `FileTooLarge`; a small
.txt upload fails with `UnsupportedType`; a small .png upload with a valid
signature is accepted. -/
theorem validate_size_and_extension_witness :
    validate 10485761 "scan.png" true = .error .FileTooLarge
    ∧ validate 5 "notes.txt" true = .error .UnsupportedType
    ∧ validate 5 "scan.PNG" true = .ok () :=
  ⟨(validate_size_and_extension 10485761 "scan.png" true).2.1 (by decide),
   (validate_size_and_extension 5 "notes.txt" true).2.2.1 (by decide) (by decide),
   (validate_size_and_extension 5 "scan.PNG" true).1.mpr
     ⟨by decide, by decide, rfl⟩⟩

/-- C8: in every reachable state of `App`, `result` and `error` are never
both non-null; while a request is in flight both are null (the handler
cleared them on entry); and every settlement transition, success or failure,
lands in a state with `isProcessing` false. -/
theorem app_state_invariant (s : AppState) (h : AppReachable s) :
    (s.result = none ∨ s.error = none)
    ∧ (s.isProcessing = true → s.result = none ∧ s.error = none)
    ∧ (∀ s' d, appStep s (.uploadSuccess d) = some s' → s'.isProcessing = false)
    ∧ (∀ s' m, appStep s (.uploadFailure m) = some s' → s'.isProcessing = false) := by
  have settleS : ∀ (u u' : AppState) (d : OcrData),
      appStep u (.uploadSuccess d) = some u' → u'.isProcessing = false := by
    intro u u' d hstep
    simp only [appStep] at hstep
    by_cases hp : u.isProcessing = true
    · rw [if_pos hp] at hstep
      injection hstep with h2
      rw [← h2]
    · rw [if_neg hp] at hstep
      cases hstep
  have settleF : ∀ (u u' : AppState) (m : String),
      appStep u (.uploadFailure m) = some u' → u'.isProcessing = false := by
    intro u u' m hstep
    simp only [appStep] at hstep
    by_cases hp : u.isProcessing = true
    · rw [if_pos hp] at hstep
      injection hstep with h2
      rw [← h2]
    · rw [if_neg hp] at hstep
      cases hstep
  have main : (s.result = none ∨ s.error = none)
      ∧ (s.isProcessing = true → s.result = none ∧ s.error = none) := by
    induction h with
    | init => exact ⟨Or.inl rfl, fun _ => ⟨rfl, rfl⟩⟩
    | @step u u' e hr hstep ih =>
        cases e with
        | uploadStart =>
            injection hstep with h2
            rw [← h2]
            exact ⟨Or.inl rfl, fun _ => ⟨rfl, rfl⟩⟩
        | uploadSuccess d =>
            simp only [appStep] at hstep
            by_cases hp : u.isProcessing = true
            · rw [if_pos hp] at hstep
              injection hstep with h2
              rw [← h2]
              exact ⟨Or.inr (ih.2 hp).2, fun hfalse => Bool.noConfusion hfalse⟩
            · rw [if_neg hp] at hstep
              cases hstep
        | uploadFailure m =>
            simp only [appStep] at hstep
            by_cases hp : u.isProcessing = true
            · rw [if_pos hp] at hstep
              injection hstep with h2
              rw [← h2]
              exact ⟨Or.inl (ih.2 hp).1, fun hfalse => Bool.noConfusion hfalse⟩
            · rw [if_neg hp] at hstep
              cases hstep
        | reset =>
            injection hstep with h2
            rw [← h2]
            exact ⟨Or.inl rfl, fun _ => ⟨rfl, rfl⟩⟩
  exact ⟨main.1, main.2, settleS s, settleF s⟩

/-- C8 witness: the invariant instantiated at the initial state. -/
theorem app_state_invariant_witness :
    initialAppState.result = none ∨ initialAppState.error = none :=
  (app_state_invariant initialAppState AppReachable.init).1

/-- Every confidence collected by `collectTokens` is non-sentinel: the
sentinel branch never adds to the confidence list. -/
theorem collectTokens_conf_nonneg (ts : List WordToken) :
    ∀ c ∈ (collectTokens ts).2, 0 ≤ c := by
  induction ts with
  | nil =>
      intro c hc
      simp [collectTokens] at hc
  | cons t ts ih =>
      intro c hc
      by_cases he : t.text = ""
      · simp only [collectTokens, if_pos he] at hc
        exact ih c hc
      · by_cases hlt : t.conf < 0
        · simp only [collectTokens, if_neg he, if_pos hlt] at hc
          exact ih c hc
        · simp only [collectTokens, if_neg he, if_neg hlt, List.mem_cons] at hc
          cases hc with
          | inl h => exact h ▸ not_lt.mp hlt
          | inr h => exact ih c h

/-- A page with no kept word texts contributes no confidences either. -/
theorem collectTokens_snd_nil (ts : List WordToken)
    (h : (collectTokens ts).1 = []) : (collectTokens ts).2 = [] := by
  induction ts with
  | nil => rfl
  | cons t ts ih =>
      by_cases he : t.text = ""
      · simp only [collectTokens, if_pos he] at h ⊢
        exact ih h
      · simp only [collectTokens, if_neg he] at h
        cases h

/-- `round1` keeps values inside [0, 100]. -/
theorem round1_bounds (x : ℚ) (h0 : 0 ≤ x) (h100 : x ≤ 100) :
    0 ≤ round1 x ∧ round1 x ≤ 100 := by
  unfold round1
  have hlb : (0 : ℤ) ≤ round (10 * x) := by
    rw [round_eq]
    refine Int.le_floor.mpr ?_
    push_cast
    linarith
  have hub : round (10 * x) ≤ 1000 := by
    rw [round_eq]
    have hx : (10 * x + 1 / 2 : ℚ) < ((1001 : ℤ) : ℚ) := by
      push_cast
      linarith
    have := Int.floor_lt.mpr hx
    omega
  constructor
  · exact div_nonneg (by exact_mod_cast hlb) (by norm_num)
  · rw [div_le_iff₀ (by norm_num : (0 : ℚ) < 10)]
    calc ((round (10 * x) : ℤ) : ℚ) ≤ 1000 := by exact_mod_cast hub
    _ = 100 * 10 := by norm_num

/-- The arithmetic mean of a non-empty list of values in [0, 100] is
in [0, 100]. -/
theorem mean_bounds (l : List ℚ) (hne : l ≠ [])
    (h0 : ∀ c ∈ l, 0 ≤ c) (h100 : ∀ c ∈ l, c ≤ 100) :
    0 ≤ l.sum / (l.length : ℚ) ∧ l.sum / (l.length : ℚ) ≤ 100 := by
  have hlen : 0 < (l.length : ℚ) := by
    have := List.length_pos.mpr hne
    exact_mod_cast this
  have hs0 : 0 ≤ l.sum := List.sum_nonneg h0
  have hs : l.sum ≤ (l.length : ℚ) * 100 := by
    have := List.sum_le_card_nsmul l 100 h100
    simpa [nsmul_eq_mul] using this
  exact ⟨div_nonneg hs0 (le_of_lt hlen), (div_le_iff₀ hlen).mpr (by linarith)⟩

/-- C4: provided every non-sentinel token confidence respects the WordToken
upper bound of 100, the aggregated confidence lies in [0, 100] (the lower
bound needs no hypothesis: sentinel confidences are excluded by
construction); and a document with zero recognized words reports confidence
exactly 0 and word_count 0. -/
theorem aggregate_confidence_invariant (pages : List (Option (List WordToken)))
    (fn lang : String)
    (hub : ∀ c ∈ allConfs pages, c ≤ 100) :
    (0 ≤ (aggregate pages fn lang).confidence
      ∧ (aggregate pages fn lang).confidence ≤ 100)
    ∧ ((pages.map pageWords).flatten = [] →
        (aggregate pages fn lang).confidence = 0
        ∧ (aggregate pages fn lang).word_count = 0) := by
  have h0 : ∀ c ∈ allConfs pages, 0 ≤ c := by
    intro c hc
    unfold allConfs at hc
    rw [List.mem_flatten] at hc
    obtain ⟨l, hl, hcl⟩ := hc
    rw [List.mem_map] at hl
    obtain ⟨p, _, rfl⟩ := hl
    cases p with
    | none => simp [pageConfs] at hcl
    | some ts => exact collectTokens_conf_nonneg ts c hcl
  constructor
  · unfold aggregate
    dsimp only
    by_cases hemp : allConfs pages = []
    · rw [if_pos hemp]
      norm_num
    · rw [if_neg hemp]
      have hm := mean_bounds (allConfs pages) hemp h0 hub
      exact round1_bounds _ hm.1 hm.2
  · intro hw
    have hpw : ∀ p ∈ pages, pageWords p = [] := by
      intro p hp
      exact List.flatten_eq_nil_iff.mp hw _ (List.mem_map_of_mem _ hp)
    have hconfs : allConfs pages = [] := by
      unfold allConfs
      rw [List.flatten_eq_nil_iff]
      intro l hl
      rw [List.mem_map] at hl
      obtain ⟨p, hp, rfl⟩ := hl
      cases hpq : p with
      | none => rfl
      | some ts =>
          have := hpw p hp
          rw [hpq] at this
          exact collectTokens_snd_nil ts this
    constructor
    · unfold aggregate
      dsimp only
      rw [if_pos hconfs]
    · unfold aggregate
      dsimp only
      refine List.sum_eq_zero ?_
      intro n hn
      rw [List.mem_map] at hn
      obtain ⟨w, hw2, rfl⟩ := hn
      rw [List.mem_map] at hw2
      obtain ⟨p, hp, rfl⟩ := hw2
      rw [hpw p hp]
      rfl

/-- A one-page document with two fully confident words, and a one-page
document whose only token has empty text. -/
def pagesAllScored : List (Option (List WordToken)) := [some [⟨"Hi", 90⟩, ⟨"there", 80⟩]]

/-- A document with a single page whose only token text is empty. -/
def pagesNoWords : List (Option (List WordToken)) := [some [⟨"", 50⟩]]

/-- C4 witness: at a concrete scored document the confidence is in [0, 100];
at a concrete document with zero recognized words the confidence is 0 and
the word count 0. -/
theorem aggregate_confidence_invariant_witness :
    (0 ≤ (aggregate pagesAllScored "a.png" "eng").confidence
      ∧ (aggregate pagesAllScored "a.png" "eng").confidence ≤ 100)
    ∧ ((aggregate pagesNoWords "b.png" "eng").confidence = 0
        ∧ (aggregate pagesNoWords "b.png" "eng").word_count = 0) :=
  ⟨(aggregate_confidence_invariant pagesAllScored "a.png" "eng" (by decide)).1,
   (aggregate_confidence_invariant pagesNoWords "b.png" "eng" (by decide)).2
     (by decide)⟩

/-- C5: the token collection loop drops exactly the empty-text tokens from
the text output, keeps sentinel-confidence tokens in the text, and collects
exactly the non-sentinel confidences of kept tokens; the aggregated
confidence is their arithmetic mean rounded to 1 decimal place, 0 when no
token carried confidence. -/
theorem token_filtering_and_confidence (ts : List WordToken)
    (pages : List (Option (List WordToken))) (fn lang : String) :
    (collectTokens ts).1
        = (ts.filter (fun t => decide (t.text ≠ ""))).map (fun t => t.text)
    ∧ (collectTokens ts).2
        = ((ts.filter (fun t => decide (t.text ≠ ""))).filter
            (fun t => decide (0 ≤ t.conf))).map (fun t => t.conf)
    ∧ (∀ t ∈ ts, t.text ≠ "" → t.text ∈ (collectTokens ts).1)
    ∧ (aggregate pages fn lang).confidence
        = (if allConfs pages = [] then 0
           else round1 ((allConfs pages).sum / ((allConfs pages).length : ℚ))) := by
  have hpair : (collectTokens ts).1
        = (ts.filter (fun t => decide (t.text ≠ ""))).map (fun t => t.text)
      ∧ (collectTokens ts).2
        = ((ts.filter (fun t => decide (t.text ≠ ""))).filter
            (fun t => decide (0 ≤ t.conf))).map (fun t => t.conf) := by
    induction ts with
    | nil => exact ⟨rfl, rfl⟩
    | cons t ts ih =>
        by_cases he : t.text = ""
        · simp [collectTokens, he, ih.1, ih.2]
        · by_cases hlt : t.conf < 0
          · have hnle : ¬ (0 ≤ t.conf) := not_le.mpr hlt
            simp [collectTokens, he, hlt, hnle, ih.1, ih.2]
          · have hle : 0 ≤ t.conf := not_lt.mp hlt
            simp [collectTokens, he, hlt, hle, ih.1, ih.2]
  refine ⟨hpair.1, hpair.2, ?_, rfl⟩
  intro t ht hne
  rw [hpair.1]
  exact List.mem_map_of_mem _ (List.mem_filter.mpr ⟨ht, by simpa using hne⟩)

/-- A page token sequence with a normal word, an empty-text token, and a
sentinel-confidence word. -/
def tokensMixed : List WordToken := [⟨"Hello", 91⟩, ⟨"", 50⟩, ⟨"odd", -1⟩]

/-- C5 witness: in the concrete mixed sequence, the sentinel-confidence word
odd is kept in the text output. -/
theorem token_filtering_and_confidence_witness :
    ("odd" : String) ∈ (collectTokens tokensMixed).1 :=
  (token_filtering_and_confidence tokensMixed [] "" "").2.2.1
    ⟨"odd", -1⟩ (by decide) (by decide)

/-- C6: a failed page contributes the empty string to the page-ordered text
without aborting sibling pages, its index still counts in `page_count`, and
the request fails — necessarily as `RecognitionEngineError` — exactly when
every page failed. -/
theorem page_failure_recovery (pages : List (Option (List WordToken)))
    (fn lang : String) :
    (processPages pages fn lang = .error .RecognitionEngineError ↔
      ∀ p ∈ pages, p = none)
    ∧ (∀ e, processPages pages fn lang = .error e → e = .RecognitionEngineError)
    ∧ ((∃ p ∈ pages, p ≠ none) →
        processPages pages fn lang = .ok (aggregate pages fn lang)
        ∧ (aggregate pages fn lang).page_count = pages.length
        ∧ (aggregate pages fn lang).text
            = String.intercalate "\n\n" (pages.map pageTextOf))
    ∧ pageTextOf none = "" := by
  unfold processPages
  by_cases hall : pages.all (·.isNone) = true
  · rw [if_pos hall]
    have hall2 : ∀ p ∈ pages, p = none := by
      intro p hp
      have := List.all_eq_true.mp hall p hp
      exact Option.isNone_iff_eq_none.mp this
    refine ⟨iff_of_true rfl hall2, ?_, ?_, rfl⟩
    · intro e he
      injection he with h2
      exact h2.symm
    · intro hex
      obtain ⟨p, hp, hne⟩ := hex
      exact absurd (hall2 p hp) hne
  · rw [if_neg hall]
    have hnall : ¬ ∀ p ∈ pages, p = none := by
      intro hforall
      apply hall
      rw [List.all_eq_true]
      intro p hp
      rw [hforall p hp]
      rfl
    refine ⟨iff_of_false (by intro h2; cases h2) hnall, ?_, ?_, rfl⟩
    · intro e he
      cases he
    · intro _
      exact ⟨rfl, rfl, rfl⟩

/-- The specification's 3-page scenario: page 2 fails (simulated engine
timeout), pages 1 and 3 succeed. -/
def pagesScenario : List (Option (List WordToken)) :=
  [some [⟨"Hello", 90⟩, ⟨"world", 85⟩], none, some [⟨"Bye", 80⟩]]

/-- C6 witness: the 3-page scenario yields a successful result whose
page_count equals the number of pages (3, counting the failed page) and
whose text joins the per-page texts in order. -/
theorem page_failure_recovery_witness :
    processPages pagesScenario "doc.pdf" "eng"
        = .ok (aggregate pagesScenario "doc.pdf" "eng")
    ∧ (aggregate pagesScenario "doc.pdf" "eng").page_count
        = pagesScenario.length
    ∧ (aggregate pagesScenario "doc.pdf" "eng").text
        = String.intercalate "\n\n" (pagesScenario.map pageTextOf) :=
  (page_failure_recovery pagesScenario "doc.pdf" "eng").2.2.1
    ⟨some [⟨"Hello", 90⟩, ⟨"world", 85⟩], by decide, by decide⟩

end OCRApp
